import Mathlib

/-!
Shallow embedding of the message-processing engine of the
`bcoin-webhook-server` repository (`src/webhook_server.py`), together with
theorems settling the frozen claims about its specification.

Payloads are JSON-like trees.  Python `dict`s are modelled as association
lists that preserve insertion order; `dict` assignment replaces the value
in place when the key exists and appends otherwise, exactly as CPython
does.  Python floats are idealised as rationals (the concrete values the
claims exercise are exactly representable).  Exceptions are modelled with
`Option`: `none` means the Python code raised.
-/

namespace Webhook

/-- Generic JSON value, mirroring the dynamic payloads of the Python code. -/
inductive JVal where
  | null
  | bool (b : Bool)
  | int (n : Int)
  | float (q : ℚ)
  | str (s : String)
  | arr (elems : List JVal)
  | obj (fields : List (String × JVal))
deriving Repr

mutual

/-- Structural equality test for `JVal` (the deriving handler does not
support this nested inductive, so it is written by hand). -/
def JVal.beq : JVal → JVal → Bool
  | .null, .null => true
  | .bool a, .bool b => a == b
  | .int a, .int b => a == b
  | .float a, .float b => a == b
  | .str a, .str b => a == b
  | .arr xs, .arr ys => JVal.beqList xs ys
  | .obj fs, .obj gs => JVal.beqFields fs gs
  | _, _ => false
termination_by structural a _ => a

def JVal.beqList : List JVal → List JVal → Bool
  | [], [] => true
  | x :: xs, y :: ys => JVal.beq x y && JVal.beqList xs ys
  | _, _ => false
termination_by structural xs _ => xs

def JVal.beqFields : List (String × JVal) → List (String × JVal) → Bool
  | [], [] => true
  | (k, v) :: fs, (l, w) :: gs => k == l && JVal.beq v w && JVal.beqFields fs gs
  | _, _ => false
termination_by structural fs _ => fs

end

mutual

theorem JVal.beq_iff : ∀ (a b : JVal), JVal.beq a b = true ↔ a = b
  | .null, b => by cases b <;> simp [JVal.beq]
  | .bool x, b => by cases b <;> simp [JVal.beq]
  | .int x, b => by cases b <;> simp [JVal.beq]
  | .float x, b => by cases b <;> simp [JVal.beq]
  | .str x, b => by cases b <;> simp [JVal.beq]
  | .arr xs, b => by
      cases b <;> simp [JVal.beq]
      exact JVal.beqList_iff xs _
  | .obj fs, b => by
      cases b <;> simp [JVal.beq]
      exact JVal.beqFields_iff fs _

theorem JVal.beqList_iff : ∀ (xs ys : List JVal),
    JVal.beqList xs ys = true ↔ xs = ys
  | [], ys => by cases ys <;> simp [JVal.beqList]
  | x :: xs, ys => by
      cases ys <;>
        simp [JVal.beqList, JVal.beq_iff x, JVal.beqList_iff xs]

theorem JVal.beqFields_iff : ∀ (fs gs : List (String × JVal)),
    JVal.beqFields fs gs = true ↔ fs = gs
  | [], gs => by cases gs <;> simp [JVal.beqFields]
  | (k, v) :: fs, gs => by
      cases gs with
      | nil => simp [JVal.beqFields]
      | cons g gs =>
        simp [JVal.beqFields, JVal.beq_iff v, JVal.beqFields_iff fs,
          Prod.ext_iff, and_assoc]

end

instance : DecidableEq JVal := fun a b =>
  decidable_of_iff (JVal.beq a b = true) (JVal.beq_iff a b)

/-- First-match lookup in an ordered association list (Python `dict` get). -/
def olookup (fs : List (String × JVal)) (k : String) : Option JVal :=
  match fs with
  | [] => none
  | (k', v) :: rest => if k' = k then some v else olookup rest k

/-- Python `dict` assignment: replace in place when the key exists,
otherwise append (CPython preserves insertion order). -/
def oset (fs : List (String × JVal)) (k : String) (v : JVal) :
    List (String × JVal) :=
  match fs with
  | [] => [(k, v)]
  | (k', v') :: rest =>
    if k' = k then (k', v) :: rest else (k', v') :: oset rest k v

/-- Python `\x7b**a, **b\x7d`: keys of `a` in order (values from `b` when
present there), then the new keys of `b` in order. -/
def omerge (a b : List (String × JVal)) : List (String × JVal) :=
  b.foldl (fun acc kv => oset acc kv.1 kv.2) a

/-- `message.get(k)` on a payload known to be an object; `none` both for a
missing key and (at the call sites modelled here) for a non-object
receiver, where Python would raise. -/
def jget (v : JVal) (k : String) : Option JVal :=
  match v with
  | .obj fs => olookup fs k
  | _ => none

/-- `message.get(k, d)`. -/
def jgetD (v : JVal) (k : String) (d : JVal) : JVal :=
  (jget v k).getD d

def JVal.isObj : JVal → Bool
  | .obj _ => true
  | _ => false

/-- Python truthiness of a JSON value. -/
def pyTruthy : JVal → Bool
  | .null => false
  | .bool b => b
  | .int n => n != 0
  | .float q => q != 0
  | .str s => s != ""
  | .arr xs => !xs.isEmpty
  | .obj fs => !fs.isEmpty

/-! ### Python string forms and numeric coercions -/

/-- Opening brace character (kept out of string literals). -/
def obrace : Char := Char.ofNat 123

/-- Closing brace character. -/
def cbrace : Char := Char.ofNat 125

/-- Single-quote character. -/
def squote : Char := Char.ofNat 39

def sq : String := String.singleton squote

/-- Decimal digits of the fractional part `rem/den`, by long division
(fuel-bounded; Python's shortest-repr printing of binary floats is
idealised as exact decimal expansion of the rational). -/
def fracDigits (den : ℕ) : ℕ → ℕ → String
  | _, 0 => ""
  | 0, _ => ""
  | fuel + 1, rem =>
    toString ((rem * 10) / den) ++ fracDigits den fuel ((rem * 10) % den)

/-- Python `str()` of a float, idealised on rationals. -/
def floatStr (q : ℚ) : String :=
  let sign := if q < 0 then "-" else ""
  let n := q.num.natAbs
  let whole := n / q.den
  let rem := n % q.den
  if rem = 0 then sign ++ toString whole ++ ".0"
  else sign ++ toString whole ++ "." ++ fracDigits q.den 17 rem

mutual

/-- Python `repr()` of a JSON-like value (string escaping inside quotes is
not modelled; no claim exercises it). -/
def pyRepr : JVal → String
  | .null => "None"
  | .bool b => if b then "True" else "False"
  | .int n => toString n
  | .float q => floatStr q
  | .str s => sq ++ s ++ sq
  | .arr xs => "[" ++ pyReprList xs ++ "]"
  | .obj fs => "\x7b" ++ pyReprFields fs ++ "\x7d"
termination_by structural v => v

def pyReprList : List JVal → String
  | [] => ""
  | [x] => pyRepr x
  | x :: y :: xs => pyRepr x ++ ", " ++ pyReprList (y :: xs)
termination_by structural xs => xs

def pyReprFields : List (String × JVal) → String
  | [] => ""
  | [(k, v)] => sq ++ k ++ sq ++ ": " ++ pyRepr v
  | (k, v) :: g :: fs =>
    sq ++ k ++ sq ++ ": " ++ pyRepr v ++ ", " ++ pyReprFields (g :: fs)
termination_by structural fs => fs

end

/-- Python `str()`: identity on strings, `repr`-like otherwise. -/
def pyStr : JVal → String
  | .str s => s
  | v => pyRepr v

def digitsToNat (ds : List Char) : ℕ :=
  ds.foldl (fun n c => 10 * n + (c.toNat - 48)) 0

/-- Strip leading and trailing whitespace (Python `str.strip()` /
the whitespace tolerance of `float()` and `int()`). -/
def trimWs (cs : List Char) : List Char :=
  ((cs.dropWhile Char.isWhitespace).reverse.dropWhile Char.isWhitespace).reverse

/-- Python `path.split(".")`: split on every dot, keeping empty pieces. -/
def splitDotsGo (acc : List Char) : List Char → List String
  | [] => [String.mk acc.reverse]
  | c :: cs =>
    if c = '.' then String.mk acc.reverse :: splitDotsGo [] cs
    else splitDotsGo (c :: acc) cs

def splitDots (path : String) : List String :=
  splitDotsGo [] path.toList

/-- ASCII lowercasing (`str.lower()`; the strings the config compares are
ASCII). -/
def lowerChar (c : Char) : Char :=
  if 65 ≤ c.toNat ∧ c.toNat ≤ 90 then Char.ofNat (c.toNat + 32) else c

def lowerStr (s : String) : String :=
  String.mk (s.toList.map lowerChar)

/-- Python `float(s)` on a string: optional surrounding whitespace, sign,
then a plain decimal literal (exponents / `inf` / `nan` are not modelled;
no claim uses them). `none` means `ValueError`. -/
def parseDecimal (s : String) : Option ℚ :=
  let cs := trimWs s.toList
  let body : List Char → Option ℚ := fun cs =>
    let ip := cs.takeWhile Char.isDigit
    match cs.dropWhile Char.isDigit with
    | [] => if ip.isEmpty then none else some (mkRat (digitsToNat ip) 1)
    | c :: frac =>
      if c = '.' ∧ frac.all Char.isDigit ∧ (ip ≠ [] ∨ frac ≠ []) then
        some (mkRat (digitsToNat ip * 10 ^ frac.length + digitsToNat frac)
          (10 ^ frac.length))
      else none
  match cs with
  | '-' :: rest => (body rest).map (fun q => -q)
  | '+' :: rest => body rest
  | _ => body cs

/-- Python `int(s)` on a string: optional whitespace, sign, digits. -/
def parsePyInt (s : String) : Option Int :=
  let cs := trimWs s.toList
  let body : List Char → Option Int := fun cs =>
    if cs ≠ [] ∧ cs.all Char.isDigit then some (digitsToNat cs) else none
  match cs with
  | '-' :: rest => (body rest).map (fun n => -n)
  | '+' :: rest => body rest
  | _ => body cs

/-- Python `float(value)`; `none` means the call raised
(`ValueError`/`TypeError`), which the caller turns into `0.0`. -/
def pyToFloat : JVal → Option ℚ
  | .int n => some (mkRat n 1)
  | .float q => some q
  | .bool b => some (mkRat (if b then 1 else 0) 1)
  | .str s => parseDecimal s
  | _ => none

/-- Python `int(value)`; truncates floats toward zero. -/
def pyToInt : JVal → Option Int
  | .int n => some n
  | .float q => some (q.num.tdiv q.den)
  | .bool b => some (if b then 1 else 0)
  | .str s => parsePyInt s
  | _ => none

/-! ### Python `str.format` with keyword arguments

`fmtGo` scans the template; `\x7bname\x7d` placeholders are looked up in
the keyword environment.  A missing name is a `KeyError`, an unmatched
brace a `ValueError`; the two are distinguished because the source
catches only `KeyError` in template application.  Format specs
(`\x7bname:spec\x7d`) are not modelled — the name lookup then simply
fails, and no claim uses them. -/

inductive FmtRes where
  | ok (s : String)
  | keyErr
  | err
deriving Repr, DecidableEq

def FmtRes.mapStr (f : String → String) : FmtRes → FmtRes
  | .ok s => .ok (f s)
  | .keyErr => .keyErr
  | .err => .err

mutual

def fmtGo (lk : String → Option JVal) : List Char → FmtRes
  | [] => .ok ""
  | c :: rest =>
    if c = obrace then
      match rest with
      | [] => .err
      | c2 :: rest2 =>
        if c2 = obrace then (fmtGo lk rest2).mapStr (String.singleton obrace ++ ·)
        else fmtName lk [] (c2 :: rest2)
    else if c = cbrace then
      match rest with
      | [] => .err
      | c2 :: rest2 =>
        if c2 = cbrace then (fmtGo lk rest2).mapStr (String.singleton cbrace ++ ·)
        else .err
    else (fmtGo lk rest).mapStr (String.singleton c ++ ·)
termination_by structural cs => cs

def fmtName (lk : String → Option JVal) (acc : List Char) : List Char → FmtRes
  | [] => .err
  | c :: rest =>
    if c = cbrace then
      match lk (String.mk acc.reverse) with
      | some v => (fmtGo lk rest).mapStr (pyStr v ++ ·)
      | none => .keyErr
    else fmtName lk (c :: acc) rest
termination_by structural cs => cs

end

/-- `s.format(**kwargs)` with the keyword environment `lk`. -/
def pyFormat (s : String) (lk : String → Option JVal) : FmtRes :=
  fmtGo lk s.toList

/-! ### Dotted paths: `_get_nested_value`, nested assignment, `_flatten_dict` -/

/-- `_get_nested_value(data, path)` with default `None`.  Every caller in
the source immediately tests the result against `None`, so a stored JSON
`null` (which Python would return and the caller would then treat as the
default) is collapsed to `none` here. -/
def getNestedGo : List String → JVal → Option JVal
  | [], cur => if cur = .null then none else some cur
  | k :: ks, .obj fs =>
    match olookup fs k with
    | some v => getNestedGo ks v
    | none => none
  | _ :: _, _ => none

def getNested (data : JVal) (path : String) : Option JVal :=
  getNestedGo (splitDots path) data

/-- The nested-assignment loop used by `_preprocess_message`:
walk `parts`, creating empty dicts for missing intermediates, and assign
`x` at the last part.  `none` models the `TypeError` Python raises when an
existing intermediate (or the final container) is not a dict. -/
def setPathGo (x : JVal) : List String → JVal → Option JVal
  | [], v => some v
  | [k], .obj fs => some (.obj (oset fs k x))
  | k :: k2 :: ks, .obj fs =>
    let child := (olookup fs k).getD (.obj [])
    match setPathGo x (k2 :: ks) child with
    | some c => some (.obj (oset fs k c))
    | none => none
  | _ :: _, _ => none

def setPath (v : JVal) (path : String) (x : JVal) : Option JVal :=
  setPathGo x (splitDots path) v

mutual

/-- `_flatten_dict(data, result, prefix)`: for each key of a dict, set the
flattened key; dict values are recursed into first and then also stored
whole under their full dotted name.  Non-dicts (and empty dicts, which are
falsy) contribute nothing. -/
def flattenDict (data : JVal) (pre : String) (acc : List (String × JVal)) :
    List (String × JVal) :=
  match data with
  | .obj fs => flattenFields fs pre acc
  | _ => acc
termination_by structural data

def flattenFields (fs : List (String × JVal)) (pre : String)
    (acc : List (String × JVal)) : List (String × JVal) :=
  match fs with
  | [] => acc
  | (k, v) :: rest =>
    let nk := if pre = "" then k else pre ++ "." ++ k
    let acc2 :=
      if v.isObj then oset (flattenDict v nk acc) nk v
      else oset acc nk v
    flattenFields rest pre acc2
termination_by structural fs

end

/-! ### `_preprocess_message` -/

/-- A preprocess spec (§ Preprocess Spec of the spec); `none` fields model
absent keys. -/
structure Preprocess where
  field_mapping : Option (List (String × String))
  merge_mapped : Option Bool
  include_fields : Option (List String)
  transformations : Option (List (String × String))
  add_fields : Option (List (String × JVal))
deriving Repr, DecidableEq

/-- The field-mapping loop: build `mapped_message` from an empty dict,
copying each non-`None` source value to its target dotted path. -/
def applyMapping (message : JVal) (mappings : List (String × String)) :
    Option JVal :=
  mappings.foldlM
    (fun mapped tv =>
      match getNested message tv.2 with
      | some v => setPath mapped tv.1 v
      | none => some mapped)
    (.obj [])

/-- `\x7b**result, **mapped\x7d`; `none` models the `TypeError` on a
non-dict operand. -/
def jmerge (a b : JVal) : Option JVal :=
  match a, b with
  | .obj fs, .obj gs => some (.obj (omerge fs gs))
  | _, _ => none

/-- The inclusion-filter loop. -/
def stageInclude (fields : List String) (result : JVal) : Option JVal :=
  fields.foldlM
    (fun filtered f =>
      match getNested result f with
      | some v => setPath filtered f v
      | none => some filtered)
    (.obj [])

/-- One type transform (`to_string` / `to_int` / `to_float` / `to_bool` /
`format:<tmpl>`; unknown kinds leave the value unchanged).  The bare
`except` around the `format:` case maps every formatting error back to
the original value. -/
def applyTransformKind (kind : String) (v : JVal) : JVal :=
  if kind = "to_string" then .str (pyStr v)
  else if kind = "to_int" then .int ((pyToInt v).getD 0)
  else if kind = "to_float" then .float ((pyToFloat v).getD 0)
  else if kind = "to_bool" then
    match v with
    | .str s => .bool (lowerStr s ∈ ["true", "yes", "1", "y"])
    | _ => .bool (pyTruthy v)
  else if ("format:".toList).isPrefixOf kind.toList then
    match pyFormat (String.mk (kind.toList.drop 7)) (fun n => if n = "value" then some v else none) with
    | .ok s => .str s
    | _ => v
  else v

/-- The transformations loop: skip missing (or `None`) values, else
replace the value at the path by its transform. -/
def stageTransforms (ts : List (String × String)) (result : JVal) :
    Option JVal :=
  ts.foldlM
    (fun res fk =>
      match getNested res fk.1 with
      | some v => setPath res fk.1 (applyTransformKind fk.2 v)
      | none => some res)
    result

/-- The add-fields loop: set each literal at its dotted path. -/
def stageAdd (fs : List (String × JVal)) (result : JVal) : Option JVal :=
  fs.foldlM (fun res fv => setPath res fv.1 fv.2) result

/-- `_preprocess_message`: field mapping (with optional merge), inclusion
filter, type transforms, field injection, in that order.  `none` models a
raised exception. -/
def preprocessMessage (message : JVal) (pp : Preprocess) : Option JVal := do
  let r1 ←
    match pp.field_mapping with
    | some mappings => do
      let mapped ← applyMapping message mappings
      if pp.merge_mapped.getD true then jmerge message mapped else pure mapped
    | none => pure message
  let r2 ←
    match pp.include_fields with
    | some fields => stageInclude fields r1
    | none => pure r1
  let r3 ←
    match pp.transformations with
    | some ts => stageTransforms ts r2
    | none => pure r2
  match pp.add_fields with
  | some fs => stageAdd fs r3
  | none => pure r3

/-! ### `_apply_template` -/

mutual

/-- `replace_variables(template_value, data)`: recurse through dicts and
lists; strings containing a brace are formatted against the flattened
payload, with `KeyError` leaving the string unchanged.  `none` models a
propagating `ValueError` from a malformed placeholder. -/
def replaceVariables (lk : String → Option JVal) : JVal → Option JVal
  | .obj fs => (replaceVarFields lk fs).map .obj
  | .arr xs => (replaceVarList lk xs).map .arr
  | .str s =>
    if s.toList.contains obrace then
      match pyFormat s lk with
      | .ok r => some (.str r)
      | .keyErr => some (.str s)
      | .err => none
    else some (.str s)
  | v => some v
termination_by structural v => v

def replaceVarFields (lk : String → Option JVal) :
    List (String × JVal) → Option (List (String × JVal))
  | [] => some []
  | (k, v) :: fs => do
    let v' ← replaceVariables lk v
    let fs' ← replaceVarFields lk fs
    pure ((k, v') :: fs')
termination_by structural fs => fs

def replaceVarList (lk : String → Option JVal) :
    List JVal → Option (List JVal)
  | [] => some []
  | v :: vs => do
    let v' ← replaceVariables lk v
    let vs' ← replaceVarList lk vs
    pure (v' :: vs')
termination_by structural vs => vs

end

/-- `_apply_template(message, template_name)`: unknown (or falsy) template
names return the message unchanged; otherwise every top-level template
entry is substituted against the flattened message.  `none` models a
raised exception (non-dict template value, or `ValueError` during
substitution). -/
def applyTemplate (message : JVal) (templateName : String)
    (templates : List (String × JVal)) : Option JVal :=
  if templateName = "" then some message
  else
    match olookup templates templateName with
    | none => some message
    | some (.obj tfs) =>
      let fd := flattenDict message "" []
      (tfs.foldlM
        (fun (res : List (String × JVal)) (kv : String × JVal) => do
          let v' ← replaceVariables (fun n => olookup fd n) kv.2
          pure (oset res kv.1 v'))
        []).map .obj
    | some _ => none

/-! ### The handler-level transform pipeline

`webhook_handler` wraps each stage in `try/except`, keeping the previous
payload when a stage raises.  The partial in-place mutation a raising
`_preprocess_message` can leave behind (Python aliasing) is not modelled:
a raising stage is treated as leaving the payload unchanged.  No claim
exercises a raising stage. -/

def preprocessStep (payload : JVal) (pp : Option Preprocess) : JVal :=
  match pp with
  | none => payload
  | some spec => (preprocessMessage payload spec).getD payload

def templateStep (payload : JVal) (tmpl : Option String)
    (templates : List (String × JVal)) : JVal :=
  match tmpl with
  | none => payload
  | some t =>
    if t = "" then payload
    else (applyTemplate payload t templates).getD payload

/-- The transform pipeline: preprocess, then template application, as run
by `webhook_handler`. -/
def transform (payload : JVal) (pp : Option Preprocess)
    (tmpl : Option String) (templates : List (String × JVal)) : JVal :=
  templateStep (preprocessStep payload pp) tmpl templates

/-! ### Targets, eligibility (`_should_forward`) and dispatch
(`process_message`) -/

/-- A forwarding target; `Option` fields model keys that may be absent
from the target dict (`ttype` stands for the source's `type` key, a Lean
keyword). -/
structure Target where
  id : Option String
  name : Option String
  url : Option String
  enabled : Option Bool
  ttype : Option String
  wxid : Option String
  event_types : Option (List String)
  symbols : Option (List String)
  format : Option JVal
  format_type : Option String
deriving Repr, DecidableEq

/-- Python membership of a message value in a list of config strings. -/
def strMem (e : Option JVal) (l : List String) : Bool :=
  match e with
  | some (.str s) => l.contains s
  | _ => false

/-- `event_type in ["trade", "position_update"]`. -/
def isTradeLike (e : Option JVal) : Bool :=
  e = some (.str "trade") || e = some (.str "position_update")

/-- `message.get("data", \x7b\x7d).get("symbol")`.  A non-dict `data`
value would raise `AttributeError` in Python; here it yields `none`, and
the theorems about this function restrict to object-or-absent `data`. -/
def symbolOf (message : JVal) : Option JVal :=
  jget (jgetD message "data" (.obj [])) "symbol"

/-- Truthiness of the looked-up symbol (`if symbol and ...`). -/
def optTruthy (v : Option JVal) : Bool :=
  match v with
  | some v => pyTruthy v
  | none => false

/-- `_should_forward(message, target)`. -/
def shouldForward (message : JVal) (t : Target) : Bool :=
  if ¬t.enabled.getD true then false
  else
    let event_type := jget message "event_type"
    if t.event_types.isSome ∧ ¬strMem event_type (t.event_types.getD []) then
      false
    else if t.symbols.isSome ∧ isTradeLike event_type then
      let symbol := symbolOf message
      if optTruthy symbol ∧ ¬strMem symbol (t.symbols.getD []) then false
      else true
    else true

/-- `target.get("id") in target_ids`. -/
def idMem (i : Option String) (tids : List String) : Bool :=
  match i with
  | some s => tids.contains s
  | none => false

/-- The selection part of `process_message`: which targets receive a
`forward_to_target` call, in order.  The broadcast loop is at method
indentation in the source, so it runs whether or not `target_ids` is
non-empty; only its `else`-branch log line is conditional. -/
def processTargets (targets : List Target) (target_ids : List String)
    (message : JVal) : List Target :=
  (if target_ids ≠ [] then
    targets.filter (fun t => idMem t.id target_ids && t.enabled.getD true)
  else []) ++
  targets.filter (fun t => t.enabled.getD true && shouldForward message t)

/-! ### Router enrichment (`payload.setdefault("_route", ...)`) -/

def routeInfo (path method : String) (ts : Int) : JVal :=
  .obj [("path", .str path), ("method", .str method), ("timestamp", .int ts)]

/-- The enrichment step of `webhook_handler`: on dict payloads,
`setdefault` inserts the `_route` block only when the key is absent
(appending it, per dict semantics); non-dict payloads pass through. -/
def enrichRoute (payload : JVal) (path method : String) (ts : Int) : JVal :=
  match payload with
  | .obj fs =>
    match olookup fs "_route" with
    | some _ => .obj fs
    | none => .obj (fs ++ [("_route", routeInfo path method ts)])
  | other => other

/-! ### Request admission (`request_filter`) and the handler pipeline -/

/-- A route configuration (the values stored under `config["routes"]`). -/
structure RouteCfg where
  target_ids : List String
  description : String
  methods : List String
  headers : List (String × String)
  query_params : List (String × String)
  template : Option String
  preprocess : Option Preprocess
deriving Repr

inductive FilterResult where
  | ok
  | reject (status : ℕ) (detail : String)
deriving Repr, DecidableEq

/-- Case-insensitive header lookup (Starlette's `Headers` mapping). -/
def hlookup (hs : List (String × String)) (name : String) : Option String :=
  match hs with
  | [] => none
  | (k, v) :: rest =>
    if lowerStr k = lowerStr name then some v else hlookup rest name

/-- The header-checking loop of `request_filter`: each configured header
must be present, and must match exactly when the configured value is
non-empty (truthy). -/
def checkHeaders (required : List (String × String))
    (reqHeaders : List (String × String)) : FilterResult :=
  match required with
  | [] => .ok
  | (name, val) :: rest =>
    match hlookup reqHeaders name with
    | none => .reject 400 ("缺少必要的请求头: " ++ name)
    | some v =>
      if val ≠ "" ∧ v ≠ val then .reject 400 ("请求头 " ++ name ++ " 的值不匹配")
      else checkHeaders rest reqHeaders

/-- The query-parameter loop of `request_filter` (exact-case lookup). -/
def checkQuery (required : List (String × String))
    (reqQuery : List (String × String)) : FilterResult :=
  match required with
  | [] => .ok
  | (name, val) :: rest =>
    match reqQuery.lookup name with
    | none => .reject 400 ("缺少必要的查询参数: " ++ name)
    | some v =>
      if val ≠ "" ∧ v ≠ val then .reject 400 ("查询参数 " ++ name ++ " 的值不匹配")
      else checkQuery rest reqQuery

/-- `request_filter`: headers first, then query parameters. -/
def requestFilter (route : RouteCfg) (reqHeaders reqQuery : List (String × String)) :
    FilterResult :=
  match checkHeaders route.headers reqHeaders with
  | .reject s d => .reject s d
  | .ok => checkQuery route.query_params reqQuery

inductive ReqOutcome where
  | rejected (status : ℕ) (detail : String)
  | dispatched (payload : JVal) (deliveredTo : List Target)
deriving Repr

/-- One inbound request through `request_filter` and `webhook_handler`:
admission, transform pipeline, `_route` enrichment, then dispatch through
`process_message`.  Rejected requests never reach the handler body. -/
def handleRequest (route : RouteCfg) (reqHeaders reqQuery : List (String × String))
    (payload : JVal) (targets : List Target)
    (templates : List (String × JVal)) (path method : String) (ts : Int) :
    ReqOutcome :=
  match requestFilter route reqHeaders reqQuery with
  | .reject s d => .rejected s d
  | .ok =>
    let p1 := transform payload route.preprocess route.template templates
    let p2 := enrichRoute p1 path method ts
    .dispatched p2 (processTargets targets route.target_ids p2)

/-! ### Control API: route path normalisation and `add_route` -/

/-- Python `s.startswith(pre)`. -/
def pyStartsWith (s pre : String) : Bool :=
  pre.toList.isPrefixOf s.toList

/-- The path normalisation shared by `add_route`, `update_route` and
`delete_route`: prepend `/` when the path does not already start with
one. -/
def normalizePath (p : String) : String :=
  if pyStartsWith p "/" then p else "/" ++ p

/-- `add_route`: requires a `path` key (else 400), normalises it, and
builds the stored route config from exactly five keys with defaults.
`none` models the 400 (missing `path`) and the `AttributeError` on a
non-string `path`. -/
def addRouteConfig (route : List (String × JVal)) :
    Option (String × List (String × JVal)) :=
  match olookup route "path" with
  | some (.str p) =>
    let path := normalizePath p
    some (path,
      [("target_ids", (olookup route "target_ids").getD (.arr [])),
       ("description", (olookup route "description").getD (.str ("路由 " ++ path))),
       ("methods", (olookup route "methods").getD (.arr [.str "POST"])),
       ("headers", (olookup route "headers").getD (.obj [])),
       ("query_params", (olookup route "query_params").getD (.obj []))])
  | _ => none

/-! ### Per-target formatting (`_format_message`) -/

/-- `isinstance(value, (str, int, float, bool)) or value is None`. -/
def isScalar : JVal → Bool
  | .str _ | .int _ | .float _ | .bool _ | .null => true
  | _ => false

/-- The scalar union used by both custom-format paths: top-level scalar
fields of the message, then top-level scalar fields of `message.data`
(later keys overriding earlier ones, per dict assignment). -/
def formatData (fields : List (String × JVal)) : List (String × JVal) :=
  let top := (fields.filter (fun kv => isScalar kv.2)).foldl
    (fun a kv => oset a kv.1 kv.2) []
  match olookup fields "data" with
  | some (.obj dfs) => (dfs.filter (fun kv => isScalar kv.2)).foldl
      (fun a kv => oset a kv.1 kv.2) top
  | _ => top

/-- Substring test (`needle in hay` on Python strings). -/
def containsChars (needle : List Char) : List Char → Bool
  | [] => needle.isEmpty
  | h :: hs => needle.isPrefixOf (h :: hs) || containsChars needle hs

def containsSub (hay needle : String) : Bool :=
  containsChars needle.toList hay.toList

mutual

/-- `replace_vars` of the `template` format path: strings containing `$`
get every `$key` replaced by `str(value)` over all data entries, in
dict order. -/
def replaceDollar (data : List (String × JVal)) : JVal → JVal
  | .obj fs => .obj (replaceDollarFields data fs)
  | .arr xs => .arr (replaceDollarList data xs)
  | .str s =>
    if s.toList.contains '$' then
      .str (data.foldl (fun acc kv => acc.replace ("$" ++ kv.1) (pyStr kv.2)) s)
    else .str s
  | v => v
termination_by structural v => v

def replaceDollarFields (data : List (String × JVal)) :
    List (String × JVal) → List (String × JVal)
  | [] => []
  | (k, v) :: fs => (k, replaceDollar data v) :: replaceDollarFields data fs
termination_by structural fs => fs

def replaceDollarList (data : List (String × JVal)) : List JVal → List JVal
  | [] => []
  | v :: vs => replaceDollar data v :: replaceDollarList data vs
termination_by structural vs => vs

end

/-- `message.get("description", str(message))` on a dict message. -/
def descOrStr (fields : List (String × JVal)) : JVal :=
  (olookup fields "description").getD (.str (pyStr (.obj fields)))

/-- The `format_type == "text"` path: pick the per-event-type template
(falling back to `"default"`, then to the literal `"\x7bdescription\x7d"`),
format it against the scalar union; a `KeyError` degrades to the
description fallback.  `none` models a raised error (non-dict shapes,
`ValueError`). -/
def formatTextPath (mfs : List (String × JVal)) (fmt : JVal) : Option JVal :=
  match fmt with
  | .obj ffs =>
    let eRaw := (olookup mfs "event_type").getD (.str "unknown")
    let ft0 :=
      match eRaw with
      | .str e => olookup ffs e
      | _ => none
    let ft1 :=
      match ft0 with
      | some v => if pyTruthy v then some v else none
      | none => none
    let ftFinal :=
      match ft1 with
      | some v => v
      | none => (olookup ffs "default").getD (.str "\x7bdescription\x7d")
    match ftFinal with
    | .str f =>
      let fd := formatData mfs
      match pyFormat f (fun n => olookup fd n) with
      | .ok s => some (.obj [("text", .str s)])
      | .keyErr => some (.obj [("text", descOrStr mfs)])
      | .err => none
    | _ => none
  | _ => none

/-- The chat-platform / default branches of `_format_message`, tried in
source order after the custom-format paths. -/
def chatOrDefault (mfs : List (String × JVal)) (t : Target) : Option JVal :=
  let urlLower := lowerStr (t.url.getD "")
  if t.ttype == some "wechat" || containsSub urlLower "wechat" then
    some (.obj [("msgtype", .str "text"),
                ("text", .obj [("content", descOrStr mfs)])])
  else if t.ttype == some "wechat_personal" then
    let wxid := t.wxid.getD ""
    if wxid = "" then some (.obj [])
    else
      some (.obj [("type", .str "sendText"),
                  ("data", .obj [("wxid", .str wxid), ("msg", descOrStr mfs)])])
  else if t.ttype == some "feishu" || containsSub urlLower "feishu" then
    some (.obj [("msg_type", .str "text"),
                ("content", .obj [("text", descOrStr mfs)])])
  else if t.ttype == some "dingtalk" || containsSub urlLower "dingtalk" then
    some (.obj [("msgtype", .str "text"),
                ("text", .obj [("content", descOrStr mfs)])])
  else some (.obj mfs)

/-- `_format_message(message, target)` on a dict message: the custom
`format` paths (`template` / `text`) when a `format` key is present with a
matching `format_type`, otherwise the chat-platform inference chain.
`none` models a raised exception. -/
def formatMessage (mfs : List (String × JVal)) (t : Target) : Option JVal :=
  match t.format with
  | some fmt =>
    let ftype := t.format_type.getD "default"
    if ftype = "template" then some (replaceDollar (formatData mfs) fmt)
    else if ftype = "text" then formatTextPath mfs fmt
    else chatOrDefault mfs t
  | none => chatOrDefault mfs t

/-! ### History (`_add_to_history`) -/

/-- `_add_to_history`: insert at index 0, then truncate to
`max_history_size` when over capacity. -/
def addToHistory (maxSize : ℕ) (hist : List JVal) (entry : JVal) : List JVal :=
  if (entry :: hist).length > maxSize then (entry :: hist).take maxSize
  else entry :: hist

/-- A sequence of inserts, oldest first, starting from the empty history. -/
def runHistory (maxSize : ℕ) (entries : List JVal) : List JVal :=
  entries.foldl (addToHistory maxSize) []

/-! ## Claims -/

/-! ### Fixtures shared by the claim theorems -/

/-- An enabled target with id `a` and no filters. -/
def targetA : Target :=
  ⟨some "a", some "A", some "http://a/", none, none, none, none, none, none, none⟩

/-- An enabled target with id `b` and no filters. -/
def targetB : Target :=
  ⟨some "b", some "B", some "http://b/", none, none, none, none, none, none, none⟩

/-- A plain status message. -/
def statusMsg : JVal := .obj [("event_type", .str "status")]

/-- A one-template catalogue whose `t` template formats
`p=\x7bprice\x7d`. -/
def priceTemplates : List (String × JVal) :=
  [("t", .obj [("desc", .str ("p=" ++ String.singleton obrace ++ "price" ++
    String.singleton cbrace))])]

/-- A payload carrying an integer price. -/
def pricePayload : JVal := .obj [("price", .int 5)]

/-- C1: the claim states that with a non-empty `target_ids` list exactly
the enabled listed targets receive the message.  The code violates this:
the broadcast loop of `process_message` sits at method indentation, not
inside the `else` branch, so it also runs in explicit-routing mode.  At
this input, enabled target `b` (outside the list) receives the message,
and listed target `a` receives it twice. -/
theorem C1_broadcast_loop_always_runs :
    (processTargets [targetA, targetB] ["a"] statusMsg).map Target.id =
      [some "a", some "a", some "b"] := by decide

/-- C2 counterexample: the claim states `_route` is always overwritten.
At a payload that already carries `_route`, `webhook_handler`'s
`setdefault` keeps the inbound value unchanged, and the kept value is not
the Router's `\x7bpath, method, timestamp\x7d` block. -/
theorem C2_route_kept_counterexample :
    enrichRoute (.obj [("_route", .str "keep")]) "/webhook" "POST" 5 =
        .obj [("_route", .str "keep")] ∧
      JVal.str "keep" ≠ routeInfo "/webhook" "POST" 5 := by decide

/-- C2 amended: the Router sets `_route` with insert-if-missing
(`setdefault`) semantics — when the inbound object payload lacks `_route`
the Router appends `\x7bpath, method, timestamp\x7d`, and when the inbound
payload already has `_route` that inbound value is kept unchanged (so it
is what history and dispatch see). -/
theorem C2_route_setdefault (fs : List (String × JVal)) (p m : String) (ts : Int) :
    (olookup fs "_route" = none →
      enrichRoute (.obj fs) p m ts = .obj (fs ++ [("_route", routeInfo p m ts)])) ∧
    (∀ v, olookup fs "_route" = some v → enrichRoute (.obj fs) p m ts = .obj fs) := by
  constructor
  · intro h
    simp [enrichRoute, h]
  · intro v h
    simp [enrichRoute, h]

/-- C2 witness: the amended theorem at concrete inputs. -/
theorem C2_route_setdefault_witness :
    (olookup [("x", JVal.int 1)] "_route" = none ∧
      enrichRoute (.obj [("x", JVal.int 1)]) "/webhook" "POST" 5 =
        .obj [("x", JVal.int 1), ("_route", routeInfo "/webhook" "POST" 5)]) ∧
    (olookup [("_route", JVal.str "keep")] "_route" = some (.str "keep") ∧
      enrichRoute (.obj [("_route", JVal.str "keep")]) "/webhook" "POST" 5 =
        .obj [("_route", JVal.str "keep")]) :=
  ⟨⟨by decide, (C2_route_setdefault [("x", JVal.int 1)] "/webhook" "POST" 5).1 (by decide)⟩,
   ⟨by decide, (C2_route_setdefault [("_route", JVal.str "keep")] "/webhook" "POST" 5).2
      (.str "keep") (by decide)⟩⟩

/-- C3 counterexample: the claim states the transform pipeline is
idempotent.  With template `t` (`p=\x7bprice\x7d`), the first application
substitutes `price` into the template; applying the pipeline again to its
own output no longer finds a `price` key, the `KeyError` leaves the
placeholder string unchanged, and the result differs from the first
output. -/
theorem C3_not_idempotent :
    transform (transform pricePayload none (some "t") priceTemplates)
        none (some "t") priceTemplates ≠
      transform pricePayload none (some "t") priceTemplates := by decide

/-- C3 amended: the transform pipeline is deterministic — it is a pure
function of `(payload, preprocess, template, templates)`, so equal inputs
give equal outputs — but it is not idempotent: re-applying it to its own
output can change the result. -/
theorem C3_deterministic (p q : JVal) (pp : Option Preprocess)
    (tmpl : Option String) (templates : List (String × JVal)) (h : p = q) :
    transform p pp tmpl templates = transform q pp tmpl templates := by
  rw [h]

/-- C3 witness: determinism at a concrete input. -/
theorem C3_deterministic_witness :
    transform pricePayload none (some "t") priceTemplates =
      transform pricePayload none (some "t") priceTemplates :=
  C3_deterministic pricePayload pricePayload none (some "t") priceTemplates rfl

/-- C4 counterexample: the claim states every stored path begins with
exactly one `/`.  The normalisation in `add_route` / `update_route` /
`delete_route` only prepends a `/` when the path lacks one, so `//x` is
stored unchanged and begins with two. -/
theorem C4_double_slash_counterexample :
    normalizePath "//x" = "//x" ∧
      pyStartsWith (normalizePath "//x") "//" = true := by decide

/-- C4 amended: every stored path begins with at least one `/` — a
leading `/` is prepended exactly when missing, and a path that already
starts with `/` (possibly with further slashes) is stored unchanged. -/
theorem C4_leading_slash (p : String) :
    pyStartsWith (normalizePath p) "/" = true ∧
      (pyStartsWith p "/" = true → normalizePath p = p) := by
  unfold normalizePath
  by_cases h : pyStartsWith p "/"
  · simp [h]
  · simp only [h, if_false]
    refine ⟨?_, by simp [h]⟩
    simp [pyStartsWith, String.toList, String.data_append, List.isPrefixOf]

/-- C4 witness: the amended theorem at concrete inputs. -/
theorem C4_leading_slash_witness :
    pyStartsWith (normalizePath "/x") "/" = true ∧ normalizePath "/x" = "/x" :=
  ⟨(C4_leading_slash "/x").1, (C4_leading_slash "/x").2 (by decide)⟩

/-- C5: the broadcast-eligibility rule exactly as the spec words it (a
second definition, written from the spec for comparison with the
source-derived `shouldForward`): reject when the target has an
`event_types` list and the event type is not a member; reject when the
event type is `trade` or `position_update`, the target has a `symbols`
list, the symbol is set, and it is not a member; otherwise accept. -/
def shouldForwardSpec (message : JVal) (t : Target) : Bool :=
  let e := jget message "event_type"
  let s := symbolOf message
  if t.event_types.isSome ∧ ¬strMem e (t.event_types.getD []) then false
  else if isTradeLike e ∧ t.symbols.isSome ∧ s.isSome ∧
      ¬strMem s (t.symbols.getD []) then false
  else true

/-- Any present `data.symbol` is truthy: under this proviso the claim's
"s is set" and the code's Python truthiness test coincide (Python treats
an empty-string symbol as unset). -/
def symbolPresentTruthy (message : JVal) : Bool :=
  match symbolOf message with
  | some v => pyTruthy v
  | none => true

/-- C5: for an enabled target, `_should_forward` computes exactly the
spec's eligibility rule — in particular `symbols` filtering never rejects
outside `trade`/`position_update` events or when `data.symbol` is absent
(that is implied by the equality, since `shouldForwardSpec` only rejects
on symbols when both hold). -/
theorem C5_should_forward_matches_spec (message : JVal) (t : Target)
    (hEnabled : t.enabled.getD true = true)
    (hSym : symbolPresentTruthy message = true) :
    shouldForward message t = shouldForwardSpec message t := by
  have hOpt : optTruthy (symbolOf message) = (symbolOf message).isSome := by
    unfold symbolPresentTruthy at hSym
    unfold optTruthy
    cases h : symbolOf message with
    | none => simp
    | some v =>
      rw [h] at hSym
      simp only [] at hSym
      simp [hSym]
  unfold shouldForward shouldForwardSpec
  simp only [hEnabled, not_true_eq_false, if_false, Bool.false_eq_true]
  by_cases hA : t.event_types.isSome ∧
      ¬strMem (jget message "event_type") (t.event_types.getD []) = true
  · simp [hA]
  · simp only [hA, if_false]
    by_cases hT : isTradeLike (jget message "event_type") = true
    · by_cases hS : t.symbols.isSome
      · simp [hS, hT, hOpt, and_assoc]
      · simp [hS, hT]
    · simp [hT]

/-- A target filtering on trade events for `BTC/USDT` only. -/
def symbolTarget : Target :=
  ⟨some "s", some "S", some "http://s/", none, none, none,
   some ["trade"], some ["BTC/USDT"], none, none⟩

/-- A trade message for a symbol outside the target's list. -/
def ethTradeMsg : JVal :=
  .obj [("event_type", .str "trade"),
        ("data", .obj [("symbol", .str "ETH/USDT")])]

/-- C5 witness: the theorem at a concrete message and target (the code
and the spec rule agree, both rejecting the foreign symbol). -/
theorem C5_witness :
    (symbolTarget.enabled.getD true = true ∧
      symbolPresentTruthy ethTradeMsg = true) ∧
    shouldForward ethTradeMsg symbolTarget =
      shouldForwardSpec ethTradeMsg symbolTarget ∧
    shouldForward ethTradeMsg symbolTarget = false :=
  ⟨⟨by decide, by decide⟩,
   C5_should_forward_matches_spec ethTradeMsg symbolTarget (by decide) (by decide),
   by decide⟩

/-- The preprocess spec of the claim's scenario: map `event_type` from
`type` and `data.price` from `p`, coerce `data.price` to float, inject
`data.source`. -/
def tvPreprocess : Preprocess :=
  ⟨some [("event_type", "type"), ("data.price", "p")], none, none,
   some [("data.price", "to_float")], some [("data.source", .str "tv")]⟩

/-- The claim's input payload. -/
def tvPayload : JVal := .obj [("type", .str "trade"), ("p", .str "42.5")]

/-- C6: on the given payload and preprocess spec, `_preprocess_message`
returns exactly the claimed object — original keys first (default
`merge_mapped` merge), then the mapped `event_type`, then `data` holding
the float-coerced price and the injected literal. -/
theorem C6_preprocess_example :
    preprocessMessage tvPayload tvPreprocess =
      some (.obj [("type", .str "trade"), ("p", .str "42.5"),
        ("event_type", .str "trade"),
        ("data", .obj [("price", .float (mkRat 85 2)), ("source", .str "tv")])]) := by
  decide

/-- One insert takes a history of length `n ≤ C` to length
`min (n + 1) C`. -/
theorem addToHistory_length (C : ℕ) (hist : List JVal) (e : JVal) :
    (addToHistory C hist e).length = min (hist.length + 1) C ∨
      (addToHistory C hist e).length = hist.length + 1 := by
  unfold addToHistory
  split
  · left; simp [List.length_take]; omega
  · right; simp

/-- Folding inserts from any admissible accumulator. -/
theorem runHistory_length_aux (C : ℕ) :
    ∀ (es acc : List JVal), acc.length ≤ C →
      (es.foldl (addToHistory C) acc).length = min (acc.length + es.length) C
  | [], acc, h => by
    simp [Nat.min_eq_left h]
  | e :: es, acc, h => by
    have hstep : (addToHistory C acc e).length = min (acc.length + 1) C := by
      unfold addToHistory
      split
      · simp only [List.length_take, List.length_cons] at *; omega
      · simp only [List.length_cons] at *; omega
    have hle : (addToHistory C acc e).length ≤ C := by omega
    have ih := runHistory_length_aux C es (addToHistory C acc e) hle
    simp only [List.foldl_cons, List.length_cons] at *
    omega

/-- The head after inserting `last` is `last`, as long as capacity allows
a first element. -/
theorem addToHistory_head (C : ℕ) (hC : 1 ≤ C) (hist : List JVal) (e : JVal) :
    (addToHistory C hist e).head? = some e := by
  unfold addToHistory
  split
  · cases C with
    | zero => omega
    | succ m => simp [List.take_succ_cons]
  · simp

/-- C7: after any sequence of `N` inserts at capacity `C ≥ 1`, the history
has length `min N C`; when the sequence is non-empty its first element is
the most recent insert; and a single insert never takes an admissible
history above capacity. -/
theorem C7_history_bound (C : ℕ) (es : List JVal) (hC : 1 ≤ C) :
    (runHistory C es).length = min es.length C ∧
    (∀ pre last, es = pre ++ [last] → (runHistory C es).head? = some last) ∧
    (∀ (hist : List JVal) (e : JVal), hist.length ≤ C →
      (addToHistory C hist e).length ≤ C) := by
  refine ⟨?_, ?_, ?_⟩
  · have := runHistory_length_aux C es [] (by simp)
    simpa [runHistory] using this
  · rintro pre last rfl
    unfold runHistory
    rw [List.foldl_append]
    exact addToHistory_head C hC _ last
  · intro hist e hle
    unfold addToHistory
    split
    · simp [List.length_take]
    · simp at *; omega

/-- C7 witness: three inserts at capacity 2. -/
theorem C7_history_bound_witness :
    1 ≤ 2 ∧
    (runHistory 2 [JVal.int 1, JVal.int 2, JVal.int 3]).length = min 3 2 ∧
    (runHistory 2 [JVal.int 1, JVal.int 2, JVal.int 3]).head? = some (JVal.int 3) :=
  ⟨by decide,
   (C7_history_bound 2 [JVal.int 1, JVal.int 2, JVal.int 3] (by decide)).1,
   (C7_history_bound 2 [JVal.int 1, JVal.int 2, JVal.int 3] (by decide)).2.1
     [JVal.int 1, JVal.int 2] (JVal.int 3) rfl⟩

/-- Admission of one required header entry: present among the request
headers, and — when a non-empty value is configured — equal to it. -/
def headerSat (reqHeaders : List (String × String)) (nv : String × String) :
    Bool :=
  match hlookup reqHeaders nv.1 with
  | none => false
  | some v => nv.2 == "" || v == nv.2

/-- `d` names `n` (the diagnostic mentions the header). -/
def namedIn (d n : String) : Prop := ∃ a b, d = a ++ n ++ b

/-- The header loop rejects with a 400 diagnostic naming some violated
header whenever one exists. -/
theorem checkHeaders_names_offender :
    ∀ (req H : List (String × String)),
      (∃ nv ∈ req, headerSat H nv = false) →
      ∃ d, checkHeaders req H = .reject 400 d ∧
        ∃ nv ∈ req, headerSat H nv = false ∧ namedIn d nv.1
  | [], _, h => by simp at h
  | (name, val) :: rest, H, h => by
    unfold checkHeaders
    cases hl : hlookup H name with
    | none =>
      refine ⟨_, rfl, (name, val), by simp, ?_, "缺少必要的请求头: ", "", ?_⟩
      · simp [headerSat, hl]
      · rw [String.append_empty]
    | some v =>
      dsimp only
      by_cases hv : val ≠ "" ∧ v ≠ val
      · rw [if_pos hv]
        refine ⟨_, rfl, (name, val), by simp, ?_, "请求头 ", " 的值不匹配", rfl⟩
        simp [headerSat, hl, hv.1, hv.2]
      · rw [if_neg hv]
        have hsat : headerSat H (name, val) = true := by
          push_neg at hv
          simp only [headerSat, hl]
          by_cases hval : val = ""
          · simp [hval]
          · simp [hval, hv hval]
        have hrest : ∃ nv ∈ rest, headerSat H nv = false := by
          rcases h with ⟨nv, hmem, hf⟩
          rcases List.mem_cons.mp hmem with heq | hmem'
          · rw [heq] at hf; rw [hf] at hsat; cases hsat
          · exact ⟨nv, hmem', hf⟩
        rcases checkHeaders_names_offender rest H hrest with ⟨d, hd, nv, hm, hf, hn⟩
        exact ⟨d, hd, nv, List.mem_cons_of_mem _ hm, hf, hn⟩

/-- C8: whenever some required header of the route is missing or
mismatched in the request, the whole request is rejected with HTTP 400
and a diagnostic naming a violated header, before any dispatch: the
outcome is `rejected`, not `dispatched`. -/
theorem C8_header_admission (route : RouteCfg)
    (reqHeaders reqQuery : List (String × String)) (payload : JVal)
    (targets : List Target) (templates : List (String × JVal))
    (path method : String) (ts : Int)
    (h : ∃ nv ∈ route.headers, headerSat reqHeaders nv = false) :
    ∃ d, handleRequest route reqHeaders reqQuery payload targets templates
        path method ts = .rejected 400 d ∧
      ∃ nv ∈ route.headers, headerSat reqHeaders nv = false ∧ namedIn d nv.1 := by
  rcases checkHeaders_names_offender route.headers reqHeaders h with
    ⟨d, hd, nv, hm, hf, hn⟩
  refine ⟨d, ?_, nv, hm, hf, hn⟩
  unfold handleRequest requestFilter
  rw [hd]

/-- The header-gated route of the claim's scenario. -/
def gatedRoute : RouteCfg :=
  ⟨[], "gated", ["POST"], [("X-Key", "secret")], [], none, none⟩

/-- C8 witness: a request without the `X-Key` header is rejected. -/
theorem C8_header_admission_witness :
    headerSat [] ("X-Key", "secret") = false ∧
    ∃ d, handleRequest gatedRoute [] [] statusMsg [] [] "/in" "POST" 0 =
        .rejected 400 d ∧
      ∃ nv ∈ gatedRoute.headers, headerSat [] nv = false ∧ namedIn d nv.1 :=
  ⟨by decide,
   C8_header_admission gatedRoute [] [] statusMsg [] [] "/in" "POST" 0
     ⟨("X-Key", "secret"), by decide, by decide⟩⟩

/-- C9: for a target with no custom `format`, not matching the earlier
wechat / wechat_personal rules, and matching the feishu rule (declared
`type` or lowercased URL containing `feishu`), `_format_message` produces
exactly `\x7bmsg_type: "text", content: \x7btext: d\x7d\x7d` where `d` is
`message.description` when present and the stringified whole message
otherwise. -/
theorem C9_feishu_format (t : Target) (mfs : List (String × JVal))
    (hFmt : t.format = none)
    (hW : (t.ttype == some "wechat" ||
      containsSub (lowerStr (t.url.getD "")) "wechat") = false)
    (hP : (t.ttype == some "wechat_personal") = false)
    (hF : (t.ttype == some "feishu" ||
      containsSub (lowerStr (t.url.getD "")) "feishu") = true) :
    formatMessage mfs t =
      some (.obj [("msg_type", .str "text"),
        ("content", .obj [("text", descOrStr mfs)])]) ∧
    (∀ d, olookup mfs "description" = some d → descOrStr mfs = d) ∧
    (olookup mfs "description" = none →
      descOrStr mfs = .str (pyStr (.obj mfs))) := by
  refine ⟨?_, ?_, ?_⟩
  · unfold formatMessage
    rw [hFmt]
    unfold chatOrDefault
    simp only [hW, hP, hF, if_true, if_false, Bool.false_eq_true]
  · intro d hd
    unfold descOrStr
    rw [hd]
    rfl
  · intro hd
    unfold descOrStr
    rw [hd]
    rfl

/-- The feishu target of the claim's scenario. -/
def feishuTarget : Target :=
  ⟨some "f", some "F", some "http://fs/", none, some "feishu", none,
   none, none, none, none⟩

/-- C9 witness: the theorem at the scenario's target and message gives the
documented wire shape with `text = "ping"`. -/
theorem C9_feishu_format_witness :
    feishuTarget.format = none ∧
    formatMessage [("description", JVal.str "ping")] feishuTarget =
      some (.obj [("msg_type", .str "text"),
        ("content", .obj [("text", descOrStr [("description", JVal.str "ping")])])]) ∧
    descOrStr [("description", JVal.str "ping")] = .str "ping" :=
  ⟨rfl,
   (C9_feishu_format feishuTarget [("description", JVal.str "ping")]
     rfl (by decide) (by decide) (by decide)).1,
   (C9_feishu_format feishuTarget [("description", JVal.str "ping")]
     rfl (by decide) (by decide) (by decide)).2.1 (.str "ping") (by decide)⟩

/-- C10: every accepted `POST /routes` body is stored as a route config
with exactly the keys `target_ids`, `description`, `methods`, `headers`,
`query_params`; in particular any `template` or `preprocess` key of the
body is discarded (absent from the stored config). -/
theorem C10_add_route_keys (body : List (String × JVal)) (p : String)
    (h : olookup body "path" = some (.str p)) :
    ∃ cfg, addRouteConfig body = some (normalizePath p, cfg) ∧
      cfg.map Prod.fst =
        ["target_ids", "description", "methods", "headers", "query_params"] ∧
      olookup cfg "template" = none ∧
      olookup cfg "preprocess" = none := by
  unfold addRouteConfig
  rw [h]
  exact ⟨_, rfl, rfl, by simp [olookup], by simp [olookup]⟩

/-- C10 witness: a body that supplies `template` and `preprocess` still
yields a stored config without them. -/
theorem C10_add_route_keys_witness :
    olookup [("path", JVal.str "r"), ("template", JVal.str "x"),
        ("preprocess", JVal.obj [])] "path" = some (.str "r") ∧
    ∃ cfg,
      addRouteConfig [("path", JVal.str "r"), ("template", JVal.str "x"),
          ("preprocess", JVal.obj [])] = some (normalizePath "r", cfg) ∧
        cfg.map Prod.fst =
          ["target_ids", "description", "methods", "headers", "query_params"] ∧
        olookup cfg "template" = none ∧
        olookup cfg "preprocess" = none :=
  ⟨by decide,
   C10_add_route_keys
     [("path", JVal.str "r"), ("template", JVal.str "x"),
      ("preprocess", JVal.obj [])] "r" (by decide)⟩

end Webhook
